import Mathlib

/-!
A shallow embedding of the deterministic JSON-segment validator
`validateJsonStructure` from `src/components/TranscriptionItemCard.tsx`
(the variant kept in `src/unnamed/part_002`, lines 127-273), together with
proofs of the specification's claims about it.

Modelling conventions:

* JavaScript numbers reached through `parseFloat` are modelled by `JNum`:
  `nan`, the two infinities, and finite values as exact rationals.  The code
  only ever compares and subtracts these values, so IEEE comparison and
  subtraction semantics on this carrier (`NaN` compares false everywhere,
  `inf - inf = nan`, ...) are reproduced exactly.
* A segment field `start`/`end` is modelled by `Option JNum`: `none` is a
  missing field (`seg.start === undefined`), `some v` is a present JSON value
  abstracted by the result `v` of `parseFloat` on it (the code inspects a
  present value only through `parseFloat`, so this quotient is faithful;
  e.g. the JSON value `"Infinity"` or `1e999` is `some .inf`, the value
  `null` or `"abc"` is `some .nan`).
* `speaker` is modelled by `Option String`: `none` covers an absent or
  non-string value (all of which fail the code's
  `!seg.speaker || typeof seg.speaker !== 'string'` test), `some s` a string
  value.  `jsTrim` models `String.prototype.trim` on the common whitespace
  characters.
* The strings pushed into `errors` / `warnings` are modelled by the
  constructors of `VError` / `VWarning`; each constructor corresponds to one
  template literal in the source and carries exactly the values interpolated
  into it.
* A parsed JSON root is modelled by `Root`; the outcome of `JSON.parse` on
  the raw text is `Option Root` (`none` = the parse threw).  A primitive
  root (number / string / boolean / null) is `Root.prim`: on those the
  code's `'num_speakers' in parsed` throws a `TypeError` which the outer
  `catch` turns into a single error message, modelled by `VError.typeError`.
-/

/-- Rational subtraction, written through `mkRat` so that concrete runs of
the validator reduce inside the kernel (`Rat.sub` is `@[irreducible]`);
`ratSub_eq_sub` below shows it is ordinary subtraction. -/
def ratSub (a b : ℚ) : ℚ :=
  mkRat (a.num * b.den - b.num * a.den) (a.den * b.den)

/-- IEEE-style value reached through `parseFloat`: `NaN`, `±Infinity`, or a
finite number (modelled as an exact rational). -/
inductive JNum where
  | nan
  | inf
  | ninf
  | fin (q : ℚ)
deriving DecidableEq, Repr

namespace JNum

/-- JavaScript `isNaN` on a parsed number. -/
def isNaN : JNum → Bool
  | nan => true
  | _ => false

/-- Is the value a finite number (`Number.isFinite`)? -/
def isFinite : JNum → Bool
  | fin _ => true
  | _ => false

/-- JavaScript `<` on numbers: any comparison involving `NaN` is false. -/
def lt : JNum → JNum → Bool
  | nan, _ => false
  | _, nan => false
  | inf, _ => false
  | ninf, ninf => false
  | ninf, _ => true
  | fin _, ninf => false
  | fin _, inf => true
  | fin a, fin b => decide (a < b)

/-- JavaScript `<=` on numbers: any comparison involving `NaN` is false. -/
def le : JNum → JNum → Bool
  | nan, _ => false
  | _, nan => false
  | ninf, _ => true
  | inf, inf => true
  | inf, _ => false
  | fin _, inf => true
  | fin _, ninf => false
  | fin a, fin b => decide (a ≤ b)

/-- JavaScript `>` on numbers. -/
def gt (a b : JNum) : Bool := lt b a

/-- JavaScript `>=` on numbers. -/
def ge (a b : JNum) : Bool := le b a

/-- JavaScript subtraction on numbers (`inf - inf = NaN`, etc.). -/
def sub : JNum → JNum → JNum
  | nan, _ => nan
  | _, nan => nan
  | inf, inf => nan
  | inf, _ => inf
  | ninf, ninf => nan
  | ninf, _ => ninf
  | fin _, inf => ninf
  | fin _, ninf => inf
  | fin a, fin b => fin (ratSub a b)

end JNum

/-- Model of `String.prototype.trim` (strips the common whitespace
characters from both ends). -/
def jsTrim (s : String) : String :=
  ⟨((s.data.dropWhile Char.isWhitespace).reverse.dropWhile Char.isWhitespace).reverse⟩

/-- One element of the resolved segment array, seen through the only three
field accesses the validator performs (`start`, `end`, `speaker`). -/
structure Segment where
  start : Option JNum
  «end» : Option JNum
  speaker : Option String
deriving DecidableEq, Repr

/-- The error strings pushed into `result.errors`, one constructor per
template literal in the source, carrying the interpolated values. -/
inductive VError where
  /-- Models the string "Broken JSON: The JSON structure is invalid. ..."
  (thrown when JSON.parse failed, line 138). -/
  | brokenJson
  /-- The `TypeError` message produced by `'num_speakers' in parsed` on a
  primitive root, surfaced by the outer catch. -/
  | typeError
  /-- Models the string "Structural Error: Root must be an array or contain
  （transcription_segments）." -/
  | structuralRoot
  /-- Models the string "Structural Error: JSON array is empty." -/
  | emptyArray
  /-- Models the string "Segment #idx: Missing timestamp fields (start/end)." -/
  | missingTimestamp (idx : Nat)
  /-- Models the string "Segment #idx: Timestamps must be valid numbers." -/
  | invalidNumbers (idx : Nat)
  /-- Models the string "Segment #idx [Timestamp Misalignment]: Start time (s)
  cannot be greater than or equal to end time (e)." -/
  | invalidDuration (idx : Nat) (s e : JNum)
  /-- Models the string "Segment #idx [Timestamp Misalignment]: Overlaps with
  Segment #(idx-1) by (overlap)s. (Start: s, Prev End: pe)". -/
  | timestampOverlap (idx : Nat) (overlap : JNum) (s pe : JNum)
  /-- Models the string "Segment #idx [Speaker Misattribution]: the speaker
  field is missing or empty." -/
  | missingSpeaker (idx : Nat)
  /-- Models the string "Speaker Count Mismatch: Header declares (declared)
  speakers, but found (found) unique speakers in segments." -/
  | speakerCountMismatch (declared : ℚ) (found : Nat)
deriving DecidableEq, Repr

/-- The warning strings pushed into `result.warnings`. -/
inductive VWarning where
  /-- Models the string "Segment #idx [Unrealistic Duration]: Segment is very short (...)." -/
  | unrealisticDuration (idx : Nat) (dur : JNum)
  /-- Models the string "Gap Detected: (gap)s silence between Segment #(idx-1) and #idx. ...". -/
  | gapDetected (idx : Nat) (gap : JNum)
  /-- Models the string "Missing Segment: JSON ends at ..., but declared duration is ...". -/
  | trailingMissing (lastEnd : JNum) (declared : ℚ)
  /-- Models the string "Speaker Check: Only 1 unique speaker found. ...". -/
  | lowSpeakerCount
deriving DecidableEq, Repr

/-- The `stats` record populated at source lines 248-256. -/
structure ValidationStats where
  uniqueSpeakers : List String
  totalSegments : Nat
  totalJsonDuration : JNum
  audioDuration : ℚ
  gapsDetected : Nat
  headerSpeakerCount : Option ℚ
  headerDuration : Option ℚ
deriving DecidableEq, Repr

/-- The `ValidationResult` record returned by one validation pass. -/
structure ValidationResult where
  isValid : Bool
  errors : List VError
  warnings : List VWarning
  stats : Option ValidationStats
deriving DecidableEq, Repr

/-- Header metadata extracted from an object root (lines 150-151); a value
is a JSON number, modelled as a rational. -/
structure Header where
  numSpeakers : Option ℚ
  durationHdr : Option ℚ
deriving DecidableEq, Repr

/-- A parsed JSON root.  In `obj`, `transcriptionSegments` / `segments` are
`some l` when the field is present *and* is an array (the code treats a
present non-array field exactly like an absent one, lines 153-155), and the
two header fields are `some q` when declared. -/
inductive Root where
  | arr (segs : List Segment)
  | obj (numSpeakers : Option ℚ) (durationHdr : Option ℚ)
        (transcriptionSegments : Option (List Segment))
        (segments : Option (List Segment))
  | prim
deriving DecidableEq, Repr

/-- Mutable scan state of the `segments.forEach` loop (lines 127-131 and
170-171): the `result` fields under construction plus `speakers`,
`gapCount`, `prevEnd`, `lastSegmentEnd`.  The JS `Set` is modelled as an
insertion-ordered duplicate-free list. -/
structure ScanState where
  isValid : Bool
  errors : List VError
  warnings : List VWarning
  speakers : List String
  gapCount : Nat
  prevEnd : JNum
  lastSegmentEnd : JNum
deriving DecidableEq, Repr

/-- JavaScript `Set.add`: append the element unless already present. -/
def insertUnique (l : List String) (x : String) : List String :=
  if x ∈ l then l else l ++ [x]

/-- Lexicographic comparison of character lists by code point; the
JavaScript default string comparator (which compares UTF-16 code units;
identical on the strings at issue here). -/
def listLtChar : List Char → List Char → Bool
  | _, [] => false
  | [], _ :: _ => true
  | c :: cs, d :: ds =>
      if c.toNat < d.toNat then true
      else if d.toNat < c.toNat then false
      else listLtChar cs ds

/-- JavaScript `<` on strings. -/
def strLt (a b : String) : Bool := listLtChar a.data b.data

/-- Insertion sort with the JavaScript default string comparator
(lexicographic).  On a duplicate-free list this agrees extensionally with
`Array.from(set).sort()`. -/
def sortInsert (x : String) : List String → List String
  | [] => [x]
  | y :: ys => if strLt x y then x :: y :: ys else y :: sortInsert x ys

/-- Model of `Array.from(speakers).sort()`. -/
def sortStr : List String → List String
  | [] => []
  | x :: xs => sortInsert x (sortStr xs)

/-- The body of `segments.forEach((seg, index) => ...)`, lines 173-233,
parameterised by the overlap tolerance constant (`0.05` in the source). -/
def processSeg (tol : ℚ) (st : ScanState) (index : Nat) (seg : Segment) : ScanState :=
  let idx := index + 1
  match seg.start, seg.«end» with
  | none, _ =>
      -- lines 179-183: missing field, record and skip the segment
      { st with isValid := false, errors := st.errors ++ [.missingTimestamp idx] }
  | some _, none =>
      { st with isValid := false, errors := st.errors ++ [.missingTimestamp idx] }
  | some s, some e =>
      if s.isNaN || e.isNaN then
        -- lines 188-192: non-numeric timestamp, record and skip
        { st with isValid := false, errors := st.errors ++ [.invalidNumbers idx] }
      else
        -- lines 194-198: chronology
        let st1 :=
          if JNum.ge s e then
            { st with isValid := false, errors := st.errors ++ [.invalidDuration idx s e] }
          else st
        -- lines 200-204: unrealistically short duration
        let dur := JNum.sub e s
        let st2 :=
          if JNum.lt dur (.fin (mkRat 2 10)) && JNum.gt dur (.fin 0) then
            { st1 with warnings := st1.warnings ++ [.unrealisticDuration idx dur] }
          else st1
        -- lines 206-214: overlap with the previous segment
        let st3 :=
          if JNum.lt s st2.prevEnd && JNum.gt (JNum.sub st2.prevEnd s) (.fin tol) then
            { st2 with
                isValid := false,
                errors := st2.errors ++ [.timestampOverlap idx (JNum.sub st2.prevEnd s) s st2.prevEnd] }
          else st2
        -- lines 216-221: gap detection
        let st4 :=
          if JNum.gt (JNum.sub s st3.prevEnd) (.fin 2) then
            { st3 with
                gapCount := st3.gapCount + 1,
                warnings := st3.warnings ++ [.gapDetected idx (JNum.sub s st3.prevEnd)] }
          else st3
        -- lines 223-224
        let st5 := { st4 with prevEnd := e, lastSegmentEnd := e }
        -- lines 226-232: speaker labelling
        match seg.speaker with
        | some sp =>
            if jsTrim sp = "" then
              { st5 with isValid := false, errors := st5.errors ++ [.missingSpeaker idx] }
            else
              { st5 with speakers := insertUnique st5.speakers (jsTrim sp) }
        | none =>
            { st5 with isValid := false, errors := st5.errors ++ [.missingSpeaker idx] }

/-- The `forEach` loop itself: left-to-right scan carrying the index. -/
def scanSegs (tol : ℚ) (st : ScanState) (i : Nat) : List Segment → ScanState
  | [] => st
  | seg :: rest => scanSegs tol (processSeg tol st i seg) (i + 1) rest

/-- Initial scan state (lines 128-131, 170-171). -/
def initState : ScanState :=
  { isValid := true, errors := [], warnings := [], speakers := [],
    gapCount := 0, prevEnd := .fin 0, lastSegmentEnd := .fin 0 }

/-- Lines 236-239: header speaker-count consistency check. -/
def headerCheck (hdr : Header) (st : ScanState) : ScanState :=
  match hdr.numSpeakers with
  | some n =>
      if (st.speakers.length : ℚ) ≠ n then
        { st with
            isValid := false,
            errors := st.errors ++ [.speakerCountMismatch n st.speakers.length] }
      else st
  | none => st

/-- Line 242: `headerDuration || duration` (JS falsy: a declared 0 falls
through to the audio duration). -/
def durationToCheck (hdr : Header) (duration : ℚ) : ℚ :=
  match hdr.durationHdr with
  | some dh => if dh = 0 then duration else dh
  | none => duration

/-- Lines 243-245: trailing-duration consistency check (warning only). -/
def trailingCheck (hdr : Header) (duration : ℚ) (st : ScanState) : ScanState :=
  if 0 < durationToCheck hdr duration ∧
      JNum.lt st.lastSegmentEnd (.fin (ratSub (durationToCheck hdr duration) 5)) = true then
    { st with warnings := st.warnings ++ [.trailingMissing st.lastSegmentEnd (durationToCheck hdr duration)] }
  else st

/-- Lines 248-256: the stats record. -/
def statsOf (hdr : Header) (duration : ℚ) (segs : List Segment) (st : ScanState) :
    ValidationStats :=
  { uniqueSpeakers := sortStr st.speakers, totalSegments := segs.length,
    totalJsonDuration := st.lastSegmentEnd, audioDuration := duration,
    gapsDetected := st.gapCount, headerSpeakerCount := hdr.numSpeakers,
    headerDuration := hdr.durationHdr }

/-- Lines 258-261: low-speaker-cardinality warning (only when the result is
still valid at this point). -/
def lowSpeakerCheck (hdr : Header) (st : ScanState) : ScanState :=
  if hdr.numSpeakers = none ∧ st.speakers.length < 2 ∧ st.isValid = true then
    { st with warnings := st.warnings ++ [.lowSpeakerCount] }
  else st

/-- The `if (result.isValid)` block, lines 163-262: empty-array check, the
scan, the two post-scan consistency checks, stats population and the
low-speaker warning. -/
def startState (segs : List Segment) : ScanState :=
  -- lines 164-167 (note: does not return; the scan and stats still run)
  if segs.length = 0 then
    { initState with isValid := false, errors := [.emptyArray] }
  else initState

def validateSegments (tol : ℚ) (hdr : Header) (segs : List Segment) (duration : ℚ) :
    ValidationResult :=
  let st1 := scanSegs tol (startState segs) 0 segs
  let st2 := headerCheck hdr st1
  let st3 := trailingCheck hdr duration st2
  let st4 := lowSpeakerCheck hdr st3
  { isValid := st4.isValid, errors := st4.errors, warnings := st4.warnings,
    stats := some (statsOf hdr duration segs st3) }

/-- Root resolution, lines 132-167: either a fatal result (parse failure,
`TypeError` on a primitive root, or no recognised shape) or a header plus
the resolved segment array. -/
def resolveParse : Option Root → ValidationResult ⊕ (Header × List Segment)
  | none => .inl { isValid := false, errors := [.brokenJson], warnings := [], stats := none }
  | some .prim => .inl { isValid := false, errors := [.typeError], warnings := [], stats := none }
  | some (.arr segs) => .inr (⟨none, none⟩, segs)
  | some (.obj ns dh (some ts) _) => .inr (⟨ns, dh⟩, ts)
  | some (.obj ns dh none (some ss)) => .inr (⟨ns, dh⟩, ss)
  | some (.obj _ _ none none) =>
      .inl { isValid := false, errors := [.structuralRoot], warnings := [], stats := none }

/-- The function `validateJsonStructure` abstracted over the overlap tolerance constant.
Inputs: the outcome of `JSON.parse(jsonInput)` and the component's audio
`duration` state. -/
def validateTol (tol : ℚ) (parseResult : Option Root) (duration : ℚ) : ValidationResult :=
  match resolveParse parseResult with
  | .inl r => r
  | .inr (hdr, segs) => validateSegments tol hdr segs duration

/-- The source's `validateJsonStructure` (lines 127-273) with its `0.05`
overlap tolerance. -/
def validateJsonStructure (parseResult : Option Root) (duration : ℚ) : ValidationResult :=
  validateTol (mkRat 5 100) parseResult duration

/-- The trajectory of `prevEnd` (updated at line 223 only when both
timestamps parsed to non-`NaN` numbers). -/
def updPrevEnd (p : JNum) (seg : Segment) : JNum :=
  match seg.start, seg.«end» with
  | some s, some e => if s.isNaN || e.isNaN then p else e
  | _, _ => p

/-- The value of `prevEnd` after scanning an initial part of the segment array. -/
def prevEndAfter (segs : List Segment) : JNum :=
  segs.foldl updPrevEnd (.fin 0)

/-- Do both timestamps exist and parse to non-`NaN` numbers (the two guard
checks at lines 179-192)? -/
def tsOk (seg : Segment) : Bool :=
  match seg.start, seg.«end» with
  | some s, some e => !(s.isNaN || e.isNaN)
  | _, _ => false

/-- The speaker label that one iteration adds to the `speakers` set:
`some (trimmed label)` when the segment passes the timestamp guards and
carries a valid speaker, `none` otherwise. -/
def speakerAdd (seg : Segment) : Option String :=
  match seg.start, seg.«end», seg.speaker with
  | some s, some e, some sp =>
      if s.isNaN || e.isNaN then none
      else if jsTrim sp = "" then none else some (jsTrim sp)
  | _, _, _ => none

/-- The errors appended by one `forEach` iteration, as a function of the
incoming `prevEnd`, used to characterise `processSeg`. -/
def segErrs (tol : ℚ) (pe : JNum) (idx : Nat) (seg : Segment) : List VError :=
  match seg.start, seg.«end» with
  | none, _ => [.missingTimestamp idx]
  | some _, none => [.missingTimestamp idx]
  | some s, some e =>
      if s.isNaN || e.isNaN then [.invalidNumbers idx]
      else
        (if JNum.ge s e then [.invalidDuration idx s e] else []) ++
        (if JNum.lt s pe && JNum.gt (JNum.sub pe s) (.fin tol) then
          [.timestampOverlap idx (JNum.sub pe s) s pe] else []) ++
        (match seg.speaker with
         | some sp => if jsTrim sp = "" then [.missingSpeaker idx] else []
         | none => [.missingSpeaker idx])

/-- One segment as claim C1 requires it: numeric (finite) timestamps with
`start < end` and a speaker that is non-blank after trimming. -/
def segOk (seg : Segment) : Bool :=
  match seg.start, seg.«end», seg.speaker with
  | some (.fin s), some (.fin e), some sp => decide (s < e) && !decide (jsTrim sp = "")
  | _, _, _ => false

/-- Adjacent-pair condition of claim C1: the preceding end exceeds the next
start by at most the 0.05 overlap tolerance. -/
def adjOk (a b : Segment) : Bool :=
  match a.«end», b.start with
  | some (.fin ea), some (.fin sb) => decide (ratSub ea sb ≤ mkRat 5 100)
  | _, _ => true

/-- All adjacent pairs of the array satisfy `adjOk`. -/
def chainOk : List Segment → Bool
  | a :: b :: rest => adjOk a b && chainOk (b :: rest)
  | _ => true

/-- The first segment of the list (if any, and if its start is numeric)
starts at most 0.05 before the running `prevEnd` value `p`. -/
def headOk (p : ℚ) : List Segment → Bool
  | [] => true
  | a :: _ =>
      match a.start with
      | some (.fin s) => decide (ratSub p s ≤ mkRat 5 100)
      | _ => true

/-- The warnings appended by one `forEach` iteration. -/
def segWarns (pe : JNum) (idx : Nat) (seg : Segment) : List VWarning :=
  match seg.start, seg.«end» with
  | some s, some e =>
      if s.isNaN || e.isNaN then []
      else
        (if JNum.lt (JNum.sub e s) (.fin (mkRat 2 10)) && JNum.gt (JNum.sub e s) (.fin 0) then
          [.unrealisticDuration idx (JNum.sub e s)] else []) ++
        (if JNum.gt (JNum.sub s pe) (.fin 2) then [.gapDetected idx (JNum.sub s pe)] else [])
  | _, _ => []

/-- The gap-counter increment of one `forEach` iteration. -/
def segGapInc (pe : JNum) (seg : Segment) : Nat :=
  match seg.start, seg.«end» with
  | some s, some e =>
      if s.isNaN || e.isNaN then 0
      else if JNum.gt (JNum.sub s pe) (.fin 2) then 1 else 0
  | _, _ => 0

/-- The timestamp-guard error a segment produces when it fails the
field-presence or numeric check (lines 179-192): which of the two messages
is pushed. -/
def tsErr (idx : Nat) (seg : Segment) : VError :=
  match seg.start, seg.«end» with
  | none, _ => .missingTimestamp idx
  | some _, none => .missingTimestamp idx
  | some _, some _ => .invalidNumbers idx

theorem ratSub_eq_sub (a b : ℚ) : ratSub a b = a - b := by
  have ha : (a.den : ℚ) ≠ 0 := Nat.cast_ne_zero.mpr a.den_nz
  have hb : (b.den : ℚ) ≠ 0 := Nat.cast_ne_zero.mpr b.den_nz
  rw [ratSub, Rat.mkRat_eq_div]
  conv_rhs => rw [← Rat.num_div_den a, ← Rat.num_div_den b]
  rw [div_sub_div _ _ ha hb]
  push_cast
  ring

theorem insertUnique_mem (l : List String) (x y : String) :
    y ∈ insertUnique l x ↔ y ∈ l ∨ y = x := by
  unfold insertUnique
  split
  next h =>
    constructor
    · exact Or.inl
    · rintro (hy | rfl)
      · exact hy
      · exact h
  next h => simp

theorem insertUnique_nodup (l : List String) (x : String) (h : l.Nodup) :
    (insertUnique l x).Nodup := by
  unfold insertUnique
  split
  · exact h
  next hmem =>
    exact ((List.perm_append_singleton x l).nodup_iff).mpr (List.nodup_cons.mpr ⟨hmem, h⟩)

theorem sortInsert_perm (x : String) (l : List String) :
    List.Perm (sortInsert x l) (x :: l) := by
  induction l with
  | nil => exact List.Perm.refl _
  | cons y ys ih =>
      unfold sortInsert
      split
      · exact List.Perm.refl _
      · exact ((ih.cons y).trans (List.Perm.swap x y ys))

theorem sortStr_perm (l : List String) : List.Perm (sortStr l) l := by
  induction l with
  | nil => exact List.Perm.refl _
  | cons x xs ih => exact (sortInsert_perm x (sortStr xs)).trans (ih.cons x)

theorem processSeg_eq (tol : ℚ) (st : ScanState) (i : Nat) (seg : Segment) :
    processSeg tol st i seg =
      { isValid := st.isValid && (segErrs tol st.prevEnd (i + 1) seg).isEmpty,
        errors := st.errors ++ segErrs tol st.prevEnd (i + 1) seg,
        warnings := st.warnings ++ segWarns st.prevEnd (i + 1) seg,
        speakers := match speakerAdd seg with
                    | some x => insertUnique st.speakers x
                    | none => st.speakers,
        gapCount := st.gapCount + segGapInc st.prevEnd seg,
        prevEnd := updPrevEnd st.prevEnd seg,
        lastSegmentEnd := updPrevEnd st.lastSegmentEnd seg } := by
  rcases seg with ⟨ss, ee, sp⟩
  cases ss with
  | none => simp [processSeg, segErrs, segWarns, segGapInc, speakerAdd, updPrevEnd]
  | some s =>
    cases ee with
    | none => simp [processSeg, segErrs, segWarns, segGapInc, speakerAdd, updPrevEnd]
    | some e =>
      by_cases hnan : (s.isNaN || e.isNaN) = true
      · cases sp <;> simp [processSeg, segErrs, segWarns, segGapInc, speakerAdd, updPrevEnd, hnan]
      · cases sp with
        | none =>
            by_cases h1 : JNum.ge s e = true <;>
            by_cases h2 : (JNum.lt (JNum.sub e s) (.fin (mkRat 2 10)) &&
              JNum.gt (JNum.sub e s) (.fin 0)) = true <;>
            by_cases h3 : (JNum.lt s st.prevEnd &&
              JNum.gt (JNum.sub st.prevEnd s) (.fin tol)) = true <;>
            by_cases h4 : (JNum.gt (JNum.sub s st.prevEnd) (.fin 2)) = true <;>
            simp [processSeg, segErrs, segWarns, segGapInc, speakerAdd, updPrevEnd,
              hnan, h1, h2, h3, h4]
        | some sp =>
            by_cases h5 : (jsTrim sp = "") <;>
            by_cases h1 : JNum.ge s e = true <;>
            by_cases h2 : (JNum.lt (JNum.sub e s) (.fin (mkRat 2 10)) &&
              JNum.gt (JNum.sub e s) (.fin 0)) = true <;>
            by_cases h3 : (JNum.lt s st.prevEnd &&
              JNum.gt (JNum.sub st.prevEnd s) (.fin tol)) = true <;>
            by_cases h4 : (JNum.gt (JNum.sub s st.prevEnd) (.fin 2)) = true <;>
            simp [processSeg, segErrs, segWarns, segGapInc, speakerAdd, updPrevEnd,
              hnan, h1, h2, h3, h4, h5]

theorem processSeg_prevEnd (tol : ℚ) (st : ScanState) (i : Nat) (seg : Segment) :
    (processSeg tol st i seg).prevEnd = updPrevEnd st.prevEnd seg := by
  rw [processSeg_eq]

theorem scanSegs_append (tol : ℚ) (st : ScanState) (i : Nat) (l1 l2 : List Segment) :
    scanSegs tol st i (l1 ++ l2) = scanSegs tol (scanSegs tol st i l1) (i + l1.length) l2 := by
  induction l1 generalizing st i with
  | nil => simp [scanSegs]
  | cons a as ih =>
      simp only [List.cons_append, scanSegs, List.length_cons, List.append_eq, ih]
      have harith : i + 1 + as.length = i + (as.length + 1) := by omega
      rw [harith]

theorem scanSegs_prevEnd (tol : ℚ) (st : ScanState) (i : Nat) (segs : List Segment) :
    (scanSegs tol st i segs).prevEnd = segs.foldl updPrevEnd st.prevEnd := by
  induction segs generalizing st i with
  | nil => rfl
  | cons a as ih =>
      simp only [scanSegs, List.foldl_cons, ih, processSeg_prevEnd]

theorem scanSegs_errors_ex (tol : ℚ) (st : ScanState) (i : Nat) (segs : List Segment) :
    ∃ t, (scanSegs tol st i segs).errors = st.errors ++ t := by
  induction segs generalizing st i with
  | nil => exact ⟨[], by simp [scanSegs]⟩
  | cons a as ih =>
      obtain ⟨t, ht⟩ := ih (processSeg tol st i a) (i + 1)
      refine ⟨segErrs tol st.prevEnd (i + 1) a ++ t, ?_⟩
      rw [scanSegs, ht, processSeg_eq]
      simp [List.append_assoc]

theorem scanSegs_warnings_ex (tol : ℚ) (st : ScanState) (i : Nat) (segs : List Segment) :
    ∃ t, (scanSegs tol st i segs).warnings = st.warnings ++ t := by
  induction segs generalizing st i with
  | nil => exact ⟨[], by simp [scanSegs]⟩
  | cons a as ih =>
      obtain ⟨t, ht⟩ := ih (processSeg tol st i a) (i + 1)
      refine ⟨segWarns st.prevEnd (i + 1) a ++ t, ?_⟩
      rw [scanSegs, ht, processSeg_eq]
      simp [List.append_assoc]

theorem processSeg_inv (tol : ℚ) (st : ScanState) (i : Nat) (seg : Segment)
    (h : st.isValid = true ↔ st.errors = []) :
    (processSeg tol st i seg).isValid = true ↔ (processSeg tol st i seg).errors = [] := by
  rw [processSeg_eq]
  cases hes : segErrs tol st.prevEnd (i + 1) seg <;> simp [h]

theorem scanSegs_inv (tol : ℚ) (st : ScanState) (i : Nat) (segs : List Segment)
    (h : st.isValid = true ↔ st.errors = []) :
    (scanSegs tol st i segs).isValid = true ↔ (scanSegs tol st i segs).errors = [] := by
  induction segs generalizing st i with
  | nil => exact h
  | cons a as ih => exact ih _ _ (processSeg_inv tol st i a h)

theorem scanSegs_speakers_mem (tol : ℚ) (st : ScanState) (i : Nat) (segs : List Segment)
    (x : String) :
    x ∈ (scanSegs tol st i segs).speakers ↔
      x ∈ st.speakers ∨ ∃ seg ∈ segs, speakerAdd seg = some x := by
  induction segs generalizing st i with
  | nil => simp [scanSegs]
  | cons a as ih =>
      rw [scanSegs, ih]
      rw [processSeg_eq]
      cases hsa : speakerAdd a with
      | none => simp [hsa, or_assoc]
        -- goal juggling handled below if simp insufficient
      | some y =>
          simp only [hsa, insertUnique_mem, List.mem_cons]
          constructor
          · rintro ((hx | rfl) | hrest)
            · exact Or.inl hx
            · exact Or.inr ⟨a, Or.inl rfl, hsa⟩
            · obtain ⟨seg, hseg, hadd⟩ := hrest
              exact Or.inr ⟨seg, Or.inr hseg, hadd⟩
          · rintro (hx | ⟨seg, hseg | hseg, hadd⟩)
            · exact Or.inl (Or.inl hx)
            · subst hseg
              rw [hsa] at hadd
              exact Or.inl (Or.inr (Option.some_inj.mp hadd).symm)
            · exact Or.inr ⟨seg, hseg, hadd⟩

theorem scanSegs_speakers_nodup (tol : ℚ) (st : ScanState) (i : Nat) (segs : List Segment)
    (h : st.speakers.Nodup) : (scanSegs tol st i segs).speakers.Nodup := by
  induction segs generalizing st i with
  | nil => exact h
  | cons a as ih =>
      refine ih _ _ ?_
      rw [processSeg_eq]
      cases hsa : speakerAdd a
      · simpa using h
      · simpa using insertUnique_nodup _ _ h

theorem headerCheck_eq (hdr : Header) (st : ScanState) :
    ∃ es, headerCheck hdr st =
      { st with isValid := st.isValid && es.isEmpty, errors := st.errors ++ es } := by
  unfold headerCheck
  rcases hdr with ⟨ns, dh⟩
  cases ns with
  | none => exact ⟨[], by simp⟩
  | some n =>
      dsimp only
      split
      · exact ⟨[.speakerCountMismatch n st.speakers.length], by simp⟩
      · exact ⟨[], by simp⟩

theorem trailingCheck_eq (hdr : Header) (d : ℚ) (st : ScanState) :
    ∃ w, trailingCheck hdr d st = { st with warnings := st.warnings ++ w } := by
  unfold trailingCheck
  split
  · exact ⟨[.trailingMissing st.lastSegmentEnd (durationToCheck hdr d)], rfl⟩
  · exact ⟨[], by simp⟩

theorem lowSpeakerCheck_eq (hdr : Header) (st : ScanState) :
    ∃ w, lowSpeakerCheck hdr st = { st with warnings := st.warnings ++ w } := by
  unfold lowSpeakerCheck
  split
  · exact ⟨[.lowSpeakerCount], rfl⟩
  · exact ⟨[], by simp⟩

/-- Unfolded form of `validateSegments` through the named post-scan steps. -/
theorem validateSegments_unfold (tol : ℚ) (hdr : Header) (segs : List Segment) (d : ℚ) :
    validateSegments tol hdr segs d =
      { isValid := (lowSpeakerCheck hdr (trailingCheck hdr d
            (headerCheck hdr (scanSegs tol (startState segs) 0 segs)))).isValid,
        errors := (lowSpeakerCheck hdr (trailingCheck hdr d
            (headerCheck hdr (scanSegs tol (startState segs) 0 segs)))).errors,
        warnings := (lowSpeakerCheck hdr (trailingCheck hdr d
            (headerCheck hdr (scanSegs tol (startState segs) 0 segs)))).warnings,
        stats := some (statsOf hdr d segs (trailingCheck hdr d
            (headerCheck hdr (scanSegs tol (startState segs) 0 segs)))) } := rfl

theorem trailingCheck_errors (hdr : Header) (d : ℚ) (st : ScanState) :
    (trailingCheck hdr d st).errors = st.errors := by
  obtain ⟨w, hw⟩ := trailingCheck_eq hdr d st
  rw [hw]

theorem trailingCheck_isValid (hdr : Header) (d : ℚ) (st : ScanState) :
    (trailingCheck hdr d st).isValid = st.isValid := by
  obtain ⟨w, hw⟩ := trailingCheck_eq hdr d st
  rw [hw]

theorem trailingCheck_speakers (hdr : Header) (d : ℚ) (st : ScanState) :
    (trailingCheck hdr d st).speakers = st.speakers := by
  obtain ⟨w, hw⟩ := trailingCheck_eq hdr d st
  rw [hw]

theorem lowSpeakerCheck_errors (hdr : Header) (st : ScanState) :
    (lowSpeakerCheck hdr st).errors = st.errors := by
  obtain ⟨w, hw⟩ := lowSpeakerCheck_eq hdr st
  rw [hw]

theorem lowSpeakerCheck_isValid (hdr : Header) (st : ScanState) :
    (lowSpeakerCheck hdr st).isValid = st.isValid := by
  obtain ⟨w, hw⟩ := lowSpeakerCheck_eq hdr st
  rw [hw]

theorem headerCheck_speakers (hdr : Header) (st : ScanState) :
    (headerCheck hdr st).speakers = st.speakers := by
  obtain ⟨es, hh⟩ := headerCheck_eq hdr st
  rw [hh]

theorem startState_inv (segs : List Segment) :
    (startState segs).isValid = true ↔ (startState segs).errors = [] := by
  unfold startState
  split <;> simp [initState]

theorem validateSegments_inv (tol : ℚ) (hdr : Header) (segs : List Segment) (d : ℚ) :
    (validateSegments tol hdr segs d).isValid = true ↔
      (validateSegments tol hdr segs d).errors = [] := by
  rw [validateSegments_unfold]
  obtain ⟨es, hh⟩ := headerCheck_eq hdr (scanSegs tol (startState segs) 0 segs)
  have hscan := scanSegs_inv tol (startState segs) 0 segs (startState_inv segs)
  dsimp only
  rw [lowSpeakerCheck_isValid, lowSpeakerCheck_errors, trailingCheck_isValid,
    trailingCheck_errors, hh]
  cases es <;> simp [hscan]

theorem headerCheck_errors_mono (hdr : Header) (st₁ st₂ : ScanState)
    (he : st₁.errors.Sublist st₂.errors) (hs : st₁.speakers = st₂.speakers) :
    (headerCheck hdr st₁).errors.Sublist (headerCheck hdr st₂).errors := by
  unfold headerCheck
  rcases hdr with ⟨ns, dh⟩
  cases ns with
  | none => exact he
  | some n =>
      dsimp only
      rw [hs]
      by_cases hcond : ((st₂.speakers.length : ℚ) ≠ n)
      · simp only [if_pos hcond]
        exact he.append (List.Sublist.refl _)
      · simp only [if_neg hcond]
        exact he

theorem gt_fin_mono {x : JNum} {t t' : ℚ} (h : t' ≤ t) (hx : JNum.gt x (.fin t) = true) :
    JNum.gt x (.fin t') = true := by
  cases x with
  | nan => simp [JNum.gt, JNum.lt] at hx
  | inf => simp [JNum.gt, JNum.lt]
  | ninf => simp [JNum.gt, JNum.lt] at hx
  | fin q =>
      simp only [JNum.gt, JNum.lt, decide_eq_true_eq] at hx ⊢
      exact lt_of_le_of_lt h hx

theorem segErrs_tol_anti {t t' : ℚ} (h : t' ≤ t) (pe : JNum) (idx : Nat) (seg : Segment) :
    (segErrs t pe idx seg).Sublist (segErrs t' pe idx seg) := by
  unfold segErrs
  rcases seg with ⟨ss, ee, sp⟩
  cases ss with
  | none => exact List.Sublist.refl _
  | some s =>
    cases ee with
    | none => exact List.Sublist.refl _
    | some e =>
      dsimp only
      split
      · exact List.Sublist.refl _
      · refine List.Sublist.append (List.Sublist.append (List.Sublist.refl _) ?_)
          (List.Sublist.refl _)
        by_cases hc : (JNum.lt s pe && JNum.gt (JNum.sub pe s) (.fin t)) = true
        · have hc' : (JNum.lt s pe && JNum.gt (JNum.sub pe s) (.fin t')) = true := by
            rw [Bool.and_eq_true] at hc ⊢
            exact ⟨hc.1, gt_fin_mono h hc.2⟩
          rw [hc, hc']
        · have hcf : (JNum.lt s pe && JNum.gt (JNum.sub pe s) (.fin t)) = false :=
            Bool.eq_false_iff.mpr hc
          rw [hcf]
          exact List.nil_sublist _

theorem scanSegs_tol_mono {t t' : ℚ} (h : t' ≤ t) (st₁ st₂ : ScanState) (i : Nat)
    (segs : List Segment) (he : st₁.errors.Sublist st₂.errors)
    (hs : st₁.speakers = st₂.speakers) (hp : st₁.prevEnd = st₂.prevEnd) :
    (scanSegs t st₁ i segs).errors.Sublist (scanSegs t' st₂ i segs).errors ∧
      (scanSegs t st₁ i segs).speakers = (scanSegs t' st₂ i segs).speakers ∧
      (scanSegs t st₁ i segs).prevEnd = (scanSegs t' st₂ i segs).prevEnd := by
  induction segs generalizing st₁ st₂ i with
  | nil => exact ⟨he, hs, hp⟩
  | cons a as ih =>
      apply ih
      · rw [processSeg_eq, processSeg_eq]
        dsimp only
        rw [hp]
        exact he.append (segErrs_tol_anti h _ _ a)
      · rw [processSeg_eq, processSeg_eq]
        dsimp only
        cases speakerAdd a <;> simp [hs]
      · rw [processSeg_prevEnd, processSeg_prevEnd, hp]

theorem validateSegments_errors_mono {t t' : ℚ} (h : t' ≤ t) (hdr : Header)
    (segs : List Segment) (d : ℚ) :
    (validateSegments t hdr segs d).errors.Sublist (validateSegments t' hdr segs d).errors := by
  rw [validateSegments_unfold, validateSegments_unfold]
  dsimp only
  rw [lowSpeakerCheck_errors, lowSpeakerCheck_errors, trailingCheck_errors, trailingCheck_errors]
  obtain ⟨he, hs, hp⟩ := scanSegs_tol_mono h (startState segs) (startState segs) 0 segs
    (List.Sublist.refl _) rfl rfl
  exact headerCheck_errors_mono hdr _ _ he hs

/-- C2: for every validation run (any parse outcome, any audio duration),
the returned report satisfies `isValid = true` if and only if `errors` is
empty.  Warnings are accumulated in a separate list that the validity flag
never reads, so adding warnings cannot change `isValid`. -/
theorem claimC2_isValid_iff_errors_empty (pr : Option Root) (d : ℚ) :
    (validateJsonStructure pr d).isValid = true ↔ (validateJsonStructure pr d).errors = [] := by
  unfold validateJsonStructure validateTol
  cases pr with
  | none => simp [resolveParse]
  | some root =>
    cases root with
    | prim => simp [resolveParse]
    | arr segs => exact validateSegments_inv _ _ _ _
    | obj ns dh ts ss =>
        cases ts with
        | some l => exact validateSegments_inv _ _ _ _
        | none =>
            cases ss with
            | some l => exact validateSegments_inv _ _ _ _
            | none => simp [resolveParse]

/-- C10: on an object root that carries both a `transcription_segments`
array and a `segments` array, the validator resolves the
`transcription_segments` array and its result does not depend on the
`segments` field at all. -/
theorem claimC10_transcription_segments_precedence (ns dh : Option ℚ) (ts : List Segment)
    (s1 s2 : Option (List Segment)) (d : ℚ) :
    validateJsonStructure (some (.obj ns dh (some ts) s1)) d =
        validateJsonStructure (some (.obj ns dh (some ts) s2)) d ∧
      resolveParse (some (.obj ns dh (some ts) s1)) = .inr (⟨ns, dh⟩, ts) :=
  ⟨rfl, rfl⟩

/-- C8: with the overlap check abstracted over its tolerance constant
(`validateTol`), the reported error list at a larger tolerance `t` is a
sublist of the error list at any smaller tolerance `t' ≤ t` — decreasing
the tolerance only adds or preserves overlap errors (and every error
reported at `t` is still reported at `t'`), and symmetrically increasing it
only removes or preserves them; the shipped validator is the instance at
tolerance `0.05`. -/
theorem claimC8_overlap_tolerance_mono (t t' : ℚ) (pr : Option Root) (d : ℚ)
    (h : t' ≤ t) :
    ((validateTol t pr d).errors.Sublist (validateTol t' pr d).errors) ∧
      (∀ e, e ∈ (validateTol t pr d).errors → e ∈ (validateTol t' pr d).errors) ∧
      (∀ x, validateJsonStructure pr x = validateTol (mkRat 5 100) pr x) := by
  have hsub : (validateTol t pr d).errors.Sublist (validateTol t' pr d).errors := by
    unfold validateTol
    cases pr with
    | none => exact List.Sublist.refl _
    | some root =>
      cases root with
      | prim => exact List.Sublist.refl _
      | arr segs => exact validateSegments_errors_mono h _ _ _
      | obj ns dh ts ss =>
          cases ts with
          | some l => exact validateSegments_errors_mono h _ _ _
          | none =>
              cases ss with
              | some l => exact validateSegments_errors_mono h _ _ _
              | none => exact List.Sublist.refl _
  exact ⟨hsub, fun e he => hsub.subset he, fun _ => rfl⟩

/-- Witness for C8 at a concrete overlapping input and the tolerance pair
`0.05` versus `0.01`. -/
theorem claimC8_witness :
    (mkRat 1 100 ≤ mkRat 5 100) ∧
      ((validateTol (mkRat 5 100)
          (some (.arr [⟨some (.fin 0), some (.fin 5), some "A"⟩,
            ⟨some (.fin 4), some (.fin 10), some "B"⟩])) 0).errors.Sublist
        (validateTol (mkRat 1 100)
          (some (.arr [⟨some (.fin 0), some (.fin 5), some "A"⟩,
            ⟨some (.fin 4), some (.fin 10), some "B"⟩])) 0).errors) :=
  ⟨by decide,
    (claimC8_overlap_tolerance_mono (mkRat 5 100) (mkRat 1 100)
      (some (.arr [⟨some (.fin 0), some (.fin 5), some "A"⟩,
        ⟨some (.fin 4), some (.fin 10), some "B"⟩])) 0 (by decide)).1⟩

theorem startState_prevEnd (segs : List Segment) : (startState segs).prevEnd = .fin 0 := by
  unfold startState
  split <;> rfl

/-- An error found during the scan survives into the final report. -/
theorem validateSegments_errors_sup (tol : ℚ) (hdr : Header) (segs : List Segment) (d : ℚ)
    {e : VError} (h : e ∈ (scanSegs tol (startState segs) 0 segs).errors) :
    e ∈ (validateSegments tol hdr segs d).errors := by
  rw [validateSegments_unfold]
  dsimp only
  rw [lowSpeakerCheck_errors, trailingCheck_errors]
  obtain ⟨es, hh⟩ := headerCheck_eq hdr (scanSegs tol (startState segs) 0 segs)
  rw [hh]
  exact List.mem_append.mpr (Or.inl h)

/-- An error produced while processing the middle segment survives the rest
of the scan. -/
theorem scanSegs_mem_of_mid (tol : ℚ) (st : ScanState) (i : Nat) (l1 : List Segment)
    (seg : Segment) (l2 : List Segment) {e : VError}
    (h : e ∈ (processSeg tol (scanSegs tol st i l1) (i + l1.length) seg).errors) :
    e ∈ (scanSegs tol st i (l1 ++ seg :: l2)).errors := by
  rw [scanSegs_append]
  rw [scanSegs]
  obtain ⟨t, ht⟩ := scanSegs_errors_ex tol
    (processSeg tol (scanSegs tol st i l1) (i + l1.length) seg) (i + l1.length + 1) l2
  rw [ht]
  exact List.mem_append.mpr (Or.inl h)

theorem segErrs_overlap_mem {tol : ℚ} {pe : JNum} {idx : Nat} {seg : Segment} {s e : JNum}
    (hstart : seg.start = some s) (hend : seg.«end» = some e)
    (hsn : s.isNaN = false) (hen : e.isNaN = false)
    (hlt : JNum.lt s pe = true) (hgt : JNum.gt (JNum.sub pe s) (.fin tol) = true) :
    VError.timestampOverlap idx (JNum.sub pe s) s pe ∈ segErrs tol pe idx seg := by
  rcases seg with ⟨ss, ee, sp⟩
  simp only at hstart hend
  subst hstart hend
  simp [segErrs, hsn, hen, hlt, hgt]

theorem segErrs_invalidDuration_mem {tol : ℚ} {pe : JNum} {idx : Nat} {seg : Segment}
    {s e : JNum} (hstart : seg.start = some s) (hend : seg.«end» = some e)
    (hsn : s.isNaN = false) (hen : e.isNaN = false) (hge : JNum.ge s e = true) :
    VError.invalidDuration idx s e ∈ segErrs tol pe idx seg := by
  rcases seg with ⟨ss, ee, sp⟩
  simp only at hstart hend
  subst hstart hend
  simp [segErrs, hsn, hen, hge]

/-- C7: any segment whose timestamps both parse to numbers and whose end is
less than or equal to its start yields an `InvalidDuration` error naming
that segment's 1-based index, and the report is invalid. -/
theorem claimC7_invalid_duration_error (pr : Option Root) (d : ℚ) (hdr : Header)
    (l1 l2 : List Segment) (seg : Segment) (s e : JNum)
    (hres : resolveParse pr = .inr (hdr, l1 ++ seg :: l2))
    (hstart : seg.start = some s) (hend : seg.«end» = some e)
    (hsn : s.isNaN = false) (hen : e.isNaN = false)
    (hle : JNum.le e s = true) :
    VError.invalidDuration (l1.length + 1) s e ∈ (validateJsonStructure pr d).errors ∧
      (validateJsonStructure pr d).isValid = false := by
  have hrw : validateJsonStructure pr d = validateSegments (mkRat 5 100) hdr (l1 ++ seg :: l2) d := by
    unfold validateJsonStructure validateTol
    rw [hres]
  rw [hrw]
  have hmem : VError.invalidDuration (l1.length + 1) s e ∈
      (validateSegments (mkRat 5 100) hdr (l1 ++ seg :: l2) d).errors := by
    apply validateSegments_errors_sup
    apply scanSegs_mem_of_mid (i := 0)
    rw [processSeg_eq]
    dsimp only
    refine List.mem_append.mpr (Or.inr ?_)
    simpa using segErrs_invalidDuration_mem hstart hend hsn hen hle
  refine ⟨hmem, ?_⟩
  have hiff := validateSegments_inv (mkRat 5 100) hdr (l1 ++ seg :: l2) d
  cases hval : (validateSegments (mkRat 5 100) hdr (l1 ++ seg :: l2) d).isValid
  · rfl
  · rw [hiff.mp hval] at hmem
    cases hmem

/-- Witness for C7: a single zero-length segment `start = end = 5`. -/
theorem claimC7_witness :
    VError.invalidDuration 1 (.fin 5) (.fin 5) ∈
        (validateJsonStructure (some (.arr [⟨some (.fin 5), some (.fin 5), some "A"⟩])) 0).errors ∧
      (validateJsonStructure (some (.arr [⟨some (.fin 5), some (.fin 5), some "A"⟩])) 0).isValid
        = false :=
  claimC7_invalid_duration_error (some (.arr [⟨some (.fin 5), some (.fin 5), some "A"⟩])) 0
    ⟨none, none⟩ [] [] ⟨some (.fin 5), some (.fin 5), some "A"⟩ (.fin 5) (.fin 5)
    rfl rfl rfl rfl rfl (by decide)

/-- C3 (amended): any segment whose start AND end both parse to non-`NaN`
numbers and whose start lies more than the 0.05 tolerance below the running
`prevEnd` (the end of the last preceding segment with valid numeric
timestamps, `prevEndAfter`) yields a `TimestampOverlap` error carrying the
overlap magnitude `prevEnd - start` and the 1-based index of the segment
(the message also names index `idx - 1`).  The statement holds at every
such position of the array, so several overlapping segments each produce
their own error. -/
theorem claimC3_overlap_error (pr : Option Root) (d : ℚ) (hdr : Header)
    (l1 l2 : List Segment) (seg : Segment) (s e : JNum)
    (hres : resolveParse pr = .inr (hdr, l1 ++ seg :: l2))
    (hstart : seg.start = some s) (hend : seg.«end» = some e)
    (hsn : s.isNaN = false) (hen : e.isNaN = false)
    (hlt : JNum.lt s (prevEndAfter l1) = true)
    (hgt : JNum.gt (JNum.sub (prevEndAfter l1) s) (.fin (mkRat 5 100)) = true) :
    VError.timestampOverlap (l1.length + 1) (JNum.sub (prevEndAfter l1) s) s (prevEndAfter l1)
      ∈ (validateJsonStructure pr d).errors := by
  have hrw : validateJsonStructure pr d = validateSegments (mkRat 5 100) hdr (l1 ++ seg :: l2) d := by
    unfold validateJsonStructure validateTol
    rw [hres]
  rw [hrw]
  have hpe : (scanSegs (mkRat 5 100) (startState (l1 ++ seg :: l2)) 0 l1).prevEnd =
      prevEndAfter l1 := by
    rw [scanSegs_prevEnd, startState_prevEnd, prevEndAfter]
  apply validateSegments_errors_sup
  apply scanSegs_mem_of_mid (i := 0)
  rw [processSeg_eq]
  dsimp only
  refine List.mem_append.mpr (Or.inr ?_)
  rw [hpe]
  simpa using segErrs_overlap_mem hstart hend hsn hen hlt hgt

/-- Witness for C3 at the spec's concrete scenario 2: segments
`(0,5,"A"), (4,10,"B")` overlap by 1 second. -/
theorem claimC3_witness :
    VError.timestampOverlap 2 (JNum.sub (prevEndAfter [⟨some (.fin 0), some (.fin 5), some "A"⟩])
        (.fin 4)) (.fin 4) (prevEndAfter [⟨some (.fin 0), some (.fin 5), some "A"⟩]) ∈
      (validateJsonStructure (some (.arr [⟨some (.fin 0), some (.fin 5), some "A"⟩,
        ⟨some (.fin 4), some (.fin 10), some "B"⟩])) 0).errors :=
  claimC3_overlap_error (some (.arr [⟨some (.fin 0), some (.fin 5), some "A"⟩,
      ⟨some (.fin 4), some (.fin 10), some "B"⟩])) 0 ⟨none, none⟩
    [⟨some (.fin 0), some (.fin 5), some "A"⟩] [] ⟨some (.fin 4), some (.fin 10), some "B"⟩
    (.fin 4) (.fin 10) rfl rfl rfl rfl rfl (by decide) (by decide)

/-- Counterexample to C3 as stated: the claim only requires the segment's
start to be numeric, but a segment with numeric start `1` (below
`prevEnd = 5` by `4 > 0.05`) and a non-numeric end is rejected by the
numeric-timestamp guard before the overlap check runs, so no
`TimestampOverlap` error is reported: the error list is exactly
`[invalidNumbers 2]`. -/
theorem claimC3_counterexample :
    (prevEndAfter [⟨some (.fin 0), some (.fin 5), some "A"⟩] = .fin 5) ∧
      (JNum.lt (.fin 1) (.fin 5) = true) ∧
      (JNum.gt (JNum.sub (.fin 5) (.fin 1)) (.fin (mkRat 5 100)) = true) ∧
      ((validateJsonStructure (some (.arr [⟨some (.fin 0), some (.fin 5), some "A"⟩,
          ⟨some (.fin 1), some .nan, some "B"⟩])) 0).errors = [.invalidNumbers 2]) := by
  decide

/-- C4 (amended): any segment whose `start` or `end` is missing or not
coercible to a number (`parseFloat` yields `NaN`) makes the validator push
exactly one timestamp error for that segment (`missingTimestamp` when a
field is absent, `invalidNumbers` when one parses to `NaN`) and leave every
other component of the scan state — `prevEnd`, the speaker set, the
warnings, the gap counter — untouched, as the step equation shows; the scan
then continues with the remaining segments, and the error survives into the
final report. -/
theorem claimC4_timestamp_guard (pr : Option Root) (d : ℚ) (hdr : Header)
    (l1 l2 : List Segment) (seg : Segment) (st : ScanState)
    (hres : resolveParse pr = .inr (hdr, l1 ++ seg :: l2))
    (hbad : tsOk seg = false) :
    ((tsErr (l1.length + 1) seg = VError.missingTimestamp (l1.length + 1)) ∨
      (tsErr (l1.length + 1) seg = VError.invalidNumbers (l1.length + 1))) ∧
      tsErr (l1.length + 1) seg ∈ (validateJsonStructure pr d).errors ∧
      processSeg (mkRat 5 100) st l1.length seg =
        { st with isValid := false, errors := st.errors ++ [tsErr (l1.length + 1) seg] } := by
  have heq : ∀ st' : ScanState, processSeg (mkRat 5 100) st' l1.length seg =
      { st' with isValid := false, errors := st'.errors ++ [tsErr (l1.length + 1) seg] } := by
    rcases seg with ⟨ss, ee, sp⟩
    cases ss with
    | none => intro st'; rfl
    | some s =>
      cases ee with
      | none => intro st'; rfl
      | some e =>
          have hnan : (s.isNaN || e.isNaN) = true := by
            simp only [tsOk, Bool.not_eq_false'] at hbad
            exact hbad
          intro st'
          simp [processSeg, hnan, tsErr]
  have hshape : (tsErr (l1.length + 1) seg = VError.missingTimestamp (l1.length + 1)) ∨
      (tsErr (l1.length + 1) seg = VError.invalidNumbers (l1.length + 1)) := by
    rcases seg with ⟨ss, ee, sp⟩
    cases ss with
    | none => exact Or.inl rfl
    | some s =>
      cases ee with
      | none => exact Or.inl rfl
      | some e => exact Or.inr rfl
  have hrw : validateJsonStructure pr d = validateSegments (mkRat 5 100) hdr (l1 ++ seg :: l2) d := by
    unfold validateJsonStructure validateTol
    rw [hres]
  refine ⟨hshape, ?_, heq st⟩
  rw [hrw]
  apply validateSegments_errors_sup
  apply scanSegs_mem_of_mid (i := 0)
  rw [show (0 : Nat) + l1.length = l1.length from by omega, heq]
  simp

/-- Witness for C4: a segment with a missing `start` field. -/
theorem claimC4_witness :
    ((tsErr 1 (⟨none, some (.fin 1), some "A"⟩ : Segment) = VError.missingTimestamp 1) ∨
      (tsErr 1 (⟨none, some (.fin 1), some "A"⟩ : Segment) = VError.invalidNumbers 1)) ∧
      tsErr 1 (⟨none, some (.fin 1), some "A"⟩ : Segment) ∈
        (validateJsonStructure (some (.arr [⟨none, some (.fin 1), some "A"⟩])) 0).errors ∧
      processSeg (mkRat 5 100) initState 0 (⟨none, some (.fin 1), some "A"⟩ : Segment) =
        { initState with
            isValid := false,
            errors := initState.errors ++ [tsErr 1 (⟨none, some (.fin 1), some "A"⟩ : Segment)] } :=
  claimC4_timestamp_guard (some (.arr [⟨none, some (.fin 1), some "A"⟩])) 0 ⟨none, none⟩
    [] [] ⟨none, some (.fin 1), some "A"⟩ initState rfl (by decide)

/-- Counterexample to C4 as stated: the claim covers a `start` that is not
coercible to a *finite* number, but the code only tests `isNaN`.  A start
of `Infinity` (JSON input `1e999` or the string `"Infinity"`) passes the
guard: no timestamp error is recorded (the only error is `invalidDuration`
from the chronology check), the remaining checks run (the gap counter
fires), `prevEnd` is updated to the segment's end `5`, and the speaker is
counted — all contradicting the claim. -/
theorem claimC4_counterexample :
    ((⟨some .inf, some (.fin 5), some "A"⟩ : Segment).start = some .inf ∧
        JNum.isFinite .inf = false) ∧
      ((validateJsonStructure (some (.arr [⟨some .inf, some (.fin 5), some "A"⟩])) 0).errors =
        [.invalidDuration 1 .inf (.fin 5)]) ∧
      ((scanSegs (mkRat 5 100) initState 0 [⟨some .inf, some (.fin 5), some "A"⟩]).prevEnd =
        .fin 5) ∧
      ((validateJsonStructure (some (.arr [⟨some .inf, some (.fin 5), some "A"⟩])) 0).stats =
        some ⟨["A"], 1, .fin 5, 0, 1, none, none⟩) := by
  decide

/-- C5 (amended): a failed `JSON.parse` yields exactly the verbatim
broken-JSON error with no stats; a primitive root (neither array nor
object) yields exactly the surfaced `TypeError` with no stats; an object
root with no recognised segment array yields exactly the structural error
with no stats; but when the root *resolves* to an empty segment array, the
empty-array structural error is reported with `isValid = false` while a
stats block is still produced. -/
theorem claimC5_parse_and_structure_failures (d : ℚ) (ns dh : Option ℚ)
    (pr : Option Root) (hdr : Header)
    (hres : resolveParse pr = .inr (hdr, [])) :
    (validateJsonStructure none d =
        ⟨false, [.brokenJson], [], none⟩) ∧
      (validateJsonStructure (some .prim) d =
        ⟨false, [.typeError], [], none⟩) ∧
      (validateJsonStructure (some (.obj ns dh none none)) d =
        ⟨false, [.structuralRoot], [], none⟩) ∧
      ((validateJsonStructure pr d).isValid = false ∧
        VError.emptyArray ∈ (validateJsonStructure pr d).errors ∧
        (validateJsonStructure pr d).stats.isSome = true) := by
  have hrw : validateJsonStructure pr d = validateSegments (mkRat 5 100) hdr [] d := by
    unfold validateJsonStructure validateTol
    rw [hres]
  have hmem : VError.emptyArray ∈ (validateSegments (mkRat 5 100) hdr [] d).errors := by
    apply validateSegments_errors_sup
    show VError.emptyArray ∈ (startState []).errors
    simp [startState, initState]
  refine ⟨rfl, rfl, rfl, ?_, ?_, ?_⟩
  · rw [hrw]
    have hiff := validateSegments_inv (mkRat 5 100) hdr [] d
    cases hval : (validateSegments (mkRat 5 100) hdr [] d).isValid
    · rfl
    · rw [hiff.mp hval] at hmem
      cases hmem
  · rw [hrw]
    exact hmem
  · rw [hrw, validateSegments_unfold]
    rfl

/-- Witness for C5: the empty JSON array as input. -/
theorem claimC5_witness :
    (validateJsonStructure none 0 = ⟨false, [.brokenJson], [], none⟩) ∧
      (validateJsonStructure (some .prim) 0 = ⟨false, [.typeError], [], none⟩) ∧
      (validateJsonStructure (some (.obj none none none none)) 0 =
        ⟨false, [.structuralRoot], [], none⟩) ∧
      ((validateJsonStructure (some (.arr [])) 0).isValid = false ∧
        VError.emptyArray ∈ (validateJsonStructure (some (.arr [])) 0).errors ∧
        (validateJsonStructure (some (.arr [])) 0).stats.isSome = true) :=
  claimC5_parse_and_structure_failures 0 none none (some (.arr [])) ⟨none, none⟩ rfl

/-- Counterexample to C5 as stated: for the empty resolved array — one of
the claim's `StructureError` cases — the claim says no partial report (no
stats) is produced, but the code falls through to the stats-population
step: the report carries `stats` with `totalSegments = 0`. -/
theorem claimC5_counterexample :
    ((validateJsonStructure (some (.arr [])) 0).errors = [.emptyArray]) ∧
      ((validateJsonStructure (some (.arr [])) 0).stats =
        some ⟨[], 0, .fin 0, 0, 0, none, none⟩) := by
  decide

theorem startState_speakers (segs : List Segment) : (startState segs).speakers = [] := by
  unfold startState
  split <;> rfl

theorem startState_errors_nonempty (segs : List Segment) (h : segs ≠ []) :
    (startState segs).errors = [] := by
  unfold startState
  split
  · simp_all
  · rfl

theorem speakerAdd_eq_some_iff (seg : Segment) (x : String) :
    speakerAdd seg = some x ↔
      tsOk seg = true ∧ ∃ sp, seg.speaker = some sp ∧ ¬(jsTrim sp = "") ∧ jsTrim sp = x := by
  rcases seg with ⟨ss, ee, sp⟩
  cases ss with
  | none => simp [speakerAdd, tsOk]
  | some s =>
    cases ee with
    | none => simp [speakerAdd, tsOk]
    | some e =>
      cases sp with
      | none => simp [speakerAdd, tsOk]
      | some str =>
          by_cases hnan : (s.isNaN || e.isNaN) = true
          · simp [speakerAdd, tsOk, hnan]
          · by_cases htrim : jsTrim str = "" <;>
              simp [speakerAdd, tsOk, hnan, htrim, Bool.not_eq_true,
                Bool.eq_false_iff.mpr hnan]

/-- C9: the speaker labels entering the unique-speaker set are the *trimmed*
labels of the segments that pass the timestamp guards and carry a valid
speaker string: membership in `stats.uniqueSpeakers` is exactly "some
segment's speaker trims to this label", the list is duplicate-free (so two
labels differing only in surrounding whitespace contribute one entry), and
the `SpeakerCountMismatch` check fires on the cardinality of that same
trimmed set. -/
theorem claimC9_speakers_trimmed (pr : Option Root) (d : ℚ) (hdr : Header)
    (segs : List Segment) (stats : ValidationStats)
    (hres : resolveParse pr = .inr (hdr, segs))
    (hstats : (validateJsonStructure pr d).stats = some stats) :
    stats.uniqueSpeakers.Nodup ∧
      (∀ x, x ∈ stats.uniqueSpeakers ↔
        ∃ seg ∈ segs, tsOk seg = true ∧
          ∃ sp, seg.speaker = some sp ∧ ¬(jsTrim sp = "") ∧ jsTrim sp = x) ∧
      (∀ n, hdr.numSpeakers = some n → (stats.uniqueSpeakers.length : ℚ) ≠ n →
        VError.speakerCountMismatch n stats.uniqueSpeakers.length ∈
          (validateJsonStructure pr d).errors) := by
  have hrw : validateJsonStructure pr d = validateSegments (mkRat 5 100) hdr segs d := by
    unfold validateJsonStructure validateTol
    rw [hres]
  rw [hrw] at hstats
  rw [validateSegments_unfold] at hstats
  simp only [Option.some.injEq] at hstats
  have hspeak : stats.uniqueSpeakers =
      sortStr (scanSegs (mkRat 5 100) (startState segs) 0 segs).speakers := by
    rw [← hstats]
    unfold statsOf
    rw [trailingCheck_speakers, headerCheck_speakers]
  have hnodup : stats.uniqueSpeakers.Nodup := by
    rw [hspeak]
    refine ((sortStr_perm _).nodup_iff).mpr ?_
    refine scanSegs_speakers_nodup _ _ _ _ ?_
    rw [startState_speakers]
    exact List.nodup_nil
  refine ⟨hnodup, ?_, ?_⟩
  · intro x
    rw [hspeak, (sortStr_perm _).mem_iff, scanSegs_speakers_mem, startState_speakers]
    simp only [List.not_mem_nil, false_or]
    constructor
    · rintro ⟨seg, hseg, hadd⟩
      obtain ⟨hts, sp, hsp, hne, htr⟩ := (speakerAdd_eq_some_iff seg x).mp hadd
      exact ⟨seg, hseg, hts, sp, hsp, hne, htr⟩
    · rintro ⟨seg, hseg, hts, sp, hsp, hne, htr⟩
      exact ⟨seg, hseg, (speakerAdd_eq_some_iff seg x).mpr ⟨hts, sp, hsp, hne, htr⟩⟩
  · intro n hn hne
    rw [hrw, validateSegments_unfold]
    dsimp only
    rw [lowSpeakerCheck_errors, trailingCheck_errors]
    have hlen : (scanSegs (mkRat 5 100) (startState segs) 0 segs).speakers.length =
        stats.uniqueSpeakers.length := by
      rw [hspeak, (sortStr_perm _).length_eq]
    unfold headerCheck
    rw [hn]
    dsimp only
    rw [hlen, if_pos hne]
    simp

/-- Witness for C9: the speakers `"A"` and `" A "` (identical after
trimming) collapse to the single stats entry `"A"`. -/
theorem claimC9_witness :
    (⟨["A"], 2, JNum.fin 10, 0, 0, none, none⟩ : ValidationStats).uniqueSpeakers.Nodup ∧
      ("A" ∈ (⟨["A"], 2, JNum.fin 10, 0, 0, none, none⟩ : ValidationStats).uniqueSpeakers ↔
        ∃ seg ∈ [(⟨some (.fin 0), some (.fin 5), some "A"⟩ : Segment),
            ⟨some (.fin 5), some (.fin 10), some " A "⟩],
          tsOk seg = true ∧
            ∃ sp, seg.speaker = some sp ∧ ¬(jsTrim sp = "") ∧ jsTrim sp = "A") := by
  have h := claimC9_speakers_trimmed
    (some (.arr [⟨some (.fin 0), some (.fin 5), some "A"⟩,
      ⟨some (.fin 5), some (.fin 10), some " A "⟩])) 0 ⟨none, none⟩
    [⟨some (.fin 0), some (.fin 5), some "A"⟩, ⟨some (.fin 5), some (.fin 10), some " A "⟩]
    ⟨["A"], 2, JNum.fin 10, 0, 0, none, none⟩ rfl (by decide)
  exact ⟨h.1, h.2.1 "A"⟩

theorem segOk_iff (seg : Segment) :
    segOk seg = true ↔ ∃ s e sp, seg.start = some (JNum.fin s) ∧
      seg.«end» = some (JNum.fin e) ∧ s < e ∧ seg.speaker = some sp ∧
      ¬(jsTrim sp = "") := by
  rcases seg with ⟨ss, ee, sp⟩
  cases ss with
  | none => simp [segOk]
  | some sv =>
    cases ee with
    | none => cases sv <;> simp [segOk]
    | some ev =>
      cases sp with
      | none => cases sv <;> cases ev <;> simp [segOk]
      | some str => cases sv <;> cases ev <;> simp [segOk]

theorem chainOk_cons {a : Segment} {as : List Segment} (h : chainOk (a :: as) = true) :
    chainOk as = true ∧ ∀ b bs, as = b :: bs → adjOk a b = true := by
  cases as with
  | nil => exact ⟨rfl, by intro b bs h'; cases h'⟩
  | cons b bs =>
      unfold chainOk at h
      rw [Bool.and_eq_true] at h
      refine ⟨h.2, ?_⟩
      intro b' bs' h'
      cases h'
      exact h.1

theorem headOk_of_adj {e : ℚ} {a b : Segment} (hend : a.«end» = some (.fin e))
    (hadj : adjOk a b = true) (bs : List Segment) : headOk e (b :: bs) = true := by
  unfold adjOk at hadj
  rw [hend] at hadj
  unfold headOk
  cases hb : b.start with
  | none => simp [hb]
  | some v =>
      cases v <;> rw [hb] at hadj <;> simp_all

/-- A scan over segments that are individually well-formed, chained within
tolerance, and whose head start is within tolerance of the incoming
`prevEnd`, adds no errors and keeps the validity flag. -/
theorem scanSegs_no_errors : ∀ (segs : List Segment) (st : ScanState) (i : Nat) (p : ℚ),
    st.prevEnd = .fin p → (∀ seg ∈ segs, segOk seg = true) → chainOk segs = true →
    headOk p segs = true →
    (scanSegs (mkRat 5 100) st i segs).errors = st.errors ∧
      (scanSegs (mkRat 5 100) st i segs).isValid = st.isValid := by
  intro segs
  induction segs with
  | nil =>
      intro st i p _ _ _ _
      exact ⟨rfl, rfl⟩
  | cons a as ih =>
      intro st i p hp hall hchain hhead
      obtain ⟨s, e, sp, hs, he, hlt, hsp, htr⟩ :=
        (segOk_iff a).mp (hall a (List.mem_cons_self a as))
      have h1 : JNum.ge (JNum.fin s) (JNum.fin e) = false := by
        simp [JNum.ge, JNum.le, not_le.mpr hlt]
      have hle : ratSub p s ≤ mkRat 5 100 := by
        have hh := hhead
        simp only [headOk, hs, decide_eq_true_eq] at hh
        exact hh
      have h2 : (JNum.lt (JNum.fin s) st.prevEnd &&
          JNum.gt (JNum.sub st.prevEnd (JNum.fin s)) (.fin (mkRat 5 100))) = false := by
        rw [hp]
        simp [JNum.lt, JNum.gt, JNum.sub, not_lt.mpr hle]
      have hnoerr : segErrs (mkRat 5 100) st.prevEnd (i + 1) a = [] := by
        unfold segErrs
        rw [hs, he]
        simp [h1, h2, hsp, htr, JNum.isNaN]
      have hpe : (processSeg (mkRat 5 100) st i a).prevEnd = .fin e := by
        rw [processSeg_prevEnd]
        unfold updPrevEnd
        rw [hs, he]
        rfl
      have hchain' := chainOk_cons hchain
      have hhead' : headOk e as = true := by
        cases as with
        | nil => rfl
        | cons b bs => exact headOk_of_adj he (hchain'.2 b bs rfl) bs
      have hall' : ∀ seg ∈ as, segOk seg = true :=
        fun seg hseg => hall seg (List.mem_cons_of_mem a hseg)
      rw [scanSegs]
      obtain ⟨ih1, ih2⟩ := ih (processSeg (mkRat 5 100) st i a) (i + 1) e hpe hall'
        hchain'.1 hhead'
      rw [ih1, ih2, processSeg_eq]
      dsimp only
      rw [hnoerr]
      simp

theorem startState_of_ne (segs : List Segment) (h : segs ≠ []) :
    startState segs = initState := by
  unfold startState
  rw [if_neg fun hlen => h (List.length_eq_zero.mp hlen)]

/-- C1 (amended): a resolved non-empty segment array with no declared
header speaker count, in which every segment has finite numeric
`start < end` and a speaker that is non-blank after trimming, adjacent
segments overlap by at most the 0.05 tolerance, and the first segment does
not start more than 0.05 before the initial `prevEnd` of 0, validates with
`isValid = true` and an empty error list. -/
theorem claimC1_clean_input_valid (pr : Option Root) (d : ℚ) (hdr : Header)
    (segs : List Segment)
    (hres : resolveParse pr = .inr (hdr, segs))
    (hns : hdr.numSpeakers = none)
    (hne : segs ≠ [])
    (hall : ∀ seg ∈ segs, segOk seg = true)
    (hchain : chainOk segs = true)
    (hhead : headOk 0 segs = true) :
    (validateJsonStructure pr d).isValid = true ∧
      (validateJsonStructure pr d).errors = [] := by
  have hrw : validateJsonStructure pr d = validateSegments (mkRat 5 100) hdr segs d := by
    unfold validateJsonStructure validateTol
    rw [hres]
  rw [hrw, validateSegments_unfold]
  dsimp only
  rw [lowSpeakerCheck_isValid, lowSpeakerCheck_errors, trailingCheck_isValid,
    trailingCheck_errors]
  have hhc : headerCheck hdr (scanSegs (mkRat 5 100) (startState segs) 0 segs) =
      scanSegs (mkRat 5 100) (startState segs) 0 segs := by
    unfold headerCheck
    rw [hns]
  rw [hhc]
  obtain ⟨he, hv⟩ := scanSegs_no_errors segs (startState segs) 0 0
    (startState_prevEnd segs) hall hchain hhead
  rw [he, hv, startState_of_ne segs hne]
  exact ⟨rfl, rfl⟩

/-- Witness for C1 at the spec's concrete scenario 1: segments
`(0,5,"A"), (5,10,"B")`. -/
theorem claimC1_witness :
    (validateJsonStructure (some (.arr [⟨some (.fin 0), some (.fin 5), some "A"⟩,
        ⟨some (.fin 5), some (.fin 10), some "B"⟩])) 0).isValid = true ∧
      (validateJsonStructure (some (.arr [⟨some (.fin 0), some (.fin 5), some "A"⟩,
        ⟨some (.fin 5), some (.fin 10), some "B"⟩])) 0).errors = [] :=
  claimC1_clean_input_valid
    (some (.arr [⟨some (.fin 0), some (.fin 5), some "A"⟩,
      ⟨some (.fin 5), some (.fin 10), some "B"⟩])) 0 ⟨none, none⟩
    [⟨some (.fin 0), some (.fin 5), some "A"⟩, ⟨some (.fin 5), some (.fin 10), some "B"⟩]
    rfl rfl (by decide) (by decide) (by decide) (by decide)

/-- Counterexample to C1 as stated: the single segment
`(start := -10, end := -5, speaker := " ")` satisfies every hypothesis of
the claim — the array is non-empty, `-10 < -5` numerically, there are no
adjacent pairs, `" "` is a non-empty string, no header speaker count is
declared — yet the report is invalid with two errors: the first segment
overlaps the initial `prevEnd = 0` by `10 > 0.05` seconds, and the speaker
is blank after trimming. -/
theorem claimC1_counterexample :
    (¬(" " = "")) ∧ ((-10 : ℚ) < -5) ∧
      ((validateJsonStructure
        (some (.arr [⟨some (.fin (-10)), some (.fin (-5)), some " "⟩])) 0).isValid = false) ∧
      ((validateJsonStructure
        (some (.arr [⟨some (.fin (-10)), some (.fin (-5)), some " "⟩])) 0).errors =
        [.timestampOverlap 1 (.fin 10) (.fin (-10)) (.fin 0), .missingSpeaker 1]) := by
  decide

/-- C6 (amended): when the root resolves with no declared header speaker
count, the produced report has no errors, and the unique-speaker list in
the stats has fewer than 2 entries, the validator emits the
`LowSpeakerCardinality` warning and the report remains valid — the warning
is informational only. -/
theorem claimC6_low_speaker_warning (pr : Option Root) (d : ℚ) (hdr : Header)
    (segs : List Segment) (stats : ValidationStats)
    (hres : resolveParse pr = .inr (hdr, segs))
    (hns : hdr.numSpeakers = none)
    (hnoerr : (validateJsonStructure pr d).errors = [])
    (hstats : (validateJsonStructure pr d).stats = some stats)
    (hlow : stats.uniqueSpeakers.length < 2) :
    VWarning.lowSpeakerCount ∈ (validateJsonStructure pr d).warnings ∧
      (validateJsonStructure pr d).isValid = true := by
  have hrw : validateJsonStructure pr d = validateSegments (mkRat 5 100) hdr segs d := by
    unfold validateJsonStructure validateTol
    rw [hres]
  rw [hrw, validateSegments_unfold] at hnoerr hstats ⊢
  dsimp only at hnoerr hstats ⊢
  have hhc : headerCheck hdr (scanSegs (mkRat 5 100) (startState segs) 0 segs) =
      scanSegs (mkRat 5 100) (startState segs) 0 segs := by
    unfold headerCheck
    rw [hns]
  rw [hhc] at hnoerr hstats ⊢
  rw [lowSpeakerCheck_errors, trailingCheck_errors] at hnoerr
  have hv1 : (scanSegs (mkRat 5 100) (startState segs) 0 segs).isValid = true :=
    (scanSegs_inv (mkRat 5 100) (startState segs) 0 segs (startState_inv segs)).mpr hnoerr
  have hv3 : (trailingCheck hdr d (scanSegs (mkRat 5 100) (startState segs) 0 segs)).isValid
      = true := by
    rw [trailingCheck_isValid]
    exact hv1
  simp only [Option.some.injEq] at hstats
  have hlen : (trailingCheck hdr d
      (scanSegs (mkRat 5 100) (startState segs) 0 segs)).speakers.length < 2 := by
    have : stats.uniqueSpeakers.length =
        (trailingCheck hdr d (scanSegs (mkRat 5 100) (startState segs) 0 segs)).speakers.length := by
      rw [← hstats]
      unfold statsOf
      dsimp only
      exact (sortStr_perm _).length_eq
    rw [← this]
    exact hlow
  unfold lowSpeakerCheck
  rw [if_pos ⟨hns, hlen, hv3⟩]
  constructor
  · exact List.mem_append.mpr (Or.inr (List.mem_singleton.mpr rfl))
  · exact hv3

/-- Witness for C6: a single-speaker error-free input. -/
theorem claimC6_witness :
    VWarning.lowSpeakerCount ∈
        (validateJsonStructure (some (.arr [⟨some (.fin 0), some (.fin 5), some "A"⟩])) 0).warnings ∧
      (validateJsonStructure (some (.arr [⟨some (.fin 0), some (.fin 5), some "A"⟩])) 0).isValid
        = true :=
  claimC6_low_speaker_warning
    (some (.arr [⟨some (.fin 0), some (.fin 5), some "A"⟩])) 0 ⟨none, none⟩
    [⟨some (.fin 0), some (.fin 5), some "A"⟩] ⟨["A"], 1, .fin 5, 0, 0, none, none⟩
    rfl rfl (by decide) (by decide) (by decide)

/-- Counterexample to C6 as stated: a segment array with a missing speaker
has a unique-speaker set of size `0 < 2` and no declared header count, yet
no `LowSpeakerCardinality` warning is emitted, because the code only adds
it when `result.isValid` is still true and here the missing speaker already
produced an error. -/
theorem claimC6_counterexample :
    ((validateJsonStructure (some (.arr [⟨some (.fin 0), some (.fin 5), none⟩])) 0).stats =
        some ⟨[], 1, .fin 5, 0, 0, none, none⟩) ∧
      ((validateJsonStructure (some (.arr [⟨some (.fin 0), some (.fin 5), none⟩])) 0).warnings
        = []) ∧
      ((validateJsonStructure (some (.arr [⟨some (.fin 0), some (.fin 5), none⟩])) 0).errors =
        [.missingSpeaker 1]) := by
  decide
